import Mathlib

/-!
A shallow embedding of the keepalive link manager in
`src/brotab/extension/chrome/offscreen.js`.

The JavaScript module is a single IIFE holding one mutable variable
`swPort`, a function `connectSW` that opens a port, starts a 20-second
ping interval and registers a disconnect listener, and an initial call
`connectSW()`.  Timers (`setInterval` / `setTimeout`) are modelled as
records carrying an id, an absolute fire time and a task; the browser
event loop is a step relation `Step` that may fire a timer (time jumps
to the timer's fire time, never earlier), deliver a platform disconnect
event for an open port, or let time pass.  `chrome.runtime.connect` may
return a fresh port or throw; the outcome is an explicit boolean
parameter supplied by the environment.  `postMessage` on a closed port
fails (`Except.error`), matching the exception the browser raises, and
the `try`/`catch` blocks of the source are the `match` arms on `Except`.
-/

namespace Offscreen

/-- A JSON-ish payload value: the ping messages carry strings and numbers. -/
inductive JVal where
  | str : String → JVal
  | num : Nat → JVal
deriving DecidableEq

/-- The payload built at each interval tick:
`{ type: 'ping', ts: Date.now() }` (offscreen.js line 14). -/
def pingPayload (now : Nat) : List (String × JVal) :=
  [("type", JVal.str "ping"), ("ts", JVal.num now)]

/-- The payload shape the specification describes:
`{ kind: "ping", timestamp: <epoch-milliseconds> }` (spec section 6).
Stated from the spec's words, only for comparison with `pingPayload`. -/
def specPingPayload (now : Nat) : List (String × JVal) :=
  [("kind", JVal.str "ping"), ("timestamp", JVal.num now)]

/-- A message posted to a port. -/
structure Msg where
  port : Nat
  payload : List (String × JVal)
deriving DecidableEq

/-- What a timer callback does when it fires: the ping-interval body, or a
scheduled `connectSW` retry. -/
inductive Task where
  | ping : Task
  | reconnect : Task
deriving DecidableEq

def Task.isPing : Task → Bool
  | Task.ping => true
  | Task.reconnect => false

def Task.isReconnect : Task → Bool
  | Task.ping => false
  | Task.reconnect => true

/-- A live timer: `period = some p` for `setInterval`, `none` for `setTimeout`. -/
structure Timer where
  id : Nat
  fireAt : Nat
  period : Option Nat
  task : Task
deriving DecidableEq

/-- Diagnostic log lines (`console.log` / `console.warn` / `console.error`
at lines 11, 19 and 24). -/
inductive LogLine where
  | connectedInfo : LogLine
  | disconnectWarn : LogLine
  | connectFailError : LogLine
deriving DecidableEq

/-- The whole mutable state of the module and its event loop: the current
time, the `swPort` module variable, fresh-id counters for ports and timers,
the live timers, the registered disconnect listeners (port id paired with
the `pingInterval` id captured by that listener's closure), the set of
still-open ports, the messages posted so far and the log. -/
structure St where
  now : Nat
  swPort : Option Nat
  nextPortId : Nat
  nextTimerId : Nat
  timers : List Timer
  listeners : List (Nat × Nat)
  openPorts : List Nat
  sent : List Msg
  log : List LogLine
deriving DecidableEq

/-- `clearInterval(pingInterval)` (line 18): removes the timer with that id. -/
def clearInterval (iid : Nat) (s : St) : St :=
  { s with timers := s.timers.filter (fun t => t.id != iid) }

/-- `console.warn('[offscreen] Keepalive port disconnected')` (line 19). -/
def logWarn (s : St) : St :=
  { s with log := LogLine.disconnectWarn :: s.log }

/-- `console.error('[offscreen] Failed to connect to SW', e)` (line 24). -/
def logError (s : St) : St :=
  { s with log := LogLine.connectFailError :: s.log }

/-- `setTimeout(connectSW, d)` (lines 21 and 25): registers a fresh one-shot
timer whose task is to run `connectSW` once `d` milliseconds have passed. -/
def scheduleReconnect (d : Nat) (s : St) : St :=
  { s with
    nextTimerId := s.nextTimerId + 1
    timers := { id := s.nextTimerId, fireAt := s.now + d, period := none,
                task := Task.reconnect } :: s.timers }

/-- The `try` body of `connectSW` (lines 9-22): `chrome.runtime.connect`
either returns a fresh port or throws (`ok = false`).  On success the new
port is stored in `swPort`, the success line is logged, a ping interval with
a 20000 millisecond period is started, and a disconnect listener capturing
that interval's id is registered on the port. -/
def connectBody (ok : Bool) (s : St) : Except Unit St :=
  if ok then
    Except.ok { s with
      swPort := some s.nextPortId
      nextPortId := s.nextPortId + 1
      nextTimerId := s.nextTimerId + 1
      openPorts := s.nextPortId :: s.openPorts
      timers := { id := s.nextTimerId, fireAt := s.now + 20000,
                  period := some 20000, task := Task.ping } :: s.timers
      listeners := (s.nextPortId, s.nextTimerId) :: s.listeners
      log := LogLine.connectedInfo :: s.log }
  else
    Except.error ()

/-- `connectSW` (lines 7-27): the try body together with its catch handler,
which logs the failure and schedules a retry after 2000 milliseconds. -/
def connectSW (ok : Bool) (s : St) : St :=
  match connectBody ok s with
  | Except.ok s2 => s2
  | Except.error _ => scheduleReconnect 2000 (logError s)

/-- `port.postMessage(payload)`: enqueues the message if the port is still
open, otherwise raises. -/
def postMessage (p : Nat) (payload : List (String × JVal)) (s : St) : Except Unit St :=
  if p ∈ s.openPorts then
    Except.ok { s with sent := { port := p, payload := payload } :: s.sent }
  else
    Except.error ()

/-- The interval callback (line 14):
`try { swPort.postMessage({ type: 'ping', ts: Date.now() }); } catch (_) {}`.
It reads the module variable `swPort` (not a captured port); a null `swPort`
or a failed send is swallowed by the `catch`. -/
def pingTick (s : St) : St :=
  match s.swPort with
  | none => s
  | some p =>
      match postMessage p (pingPayload s.now) s with
      | Except.ok s2 => s2
      | Except.error _ => s

/-- The onDisconnect listener registered for a port (lines 17-22), with `iid`
the `pingInterval` const captured in its closure: clears that interval, warns,
then schedules `connectSW` after 1000 milliseconds — in that order. -/
def onDisconnectListener (iid : Nat) (s : St) : St :=
  scheduleReconnect 1000 (logWarn (clearInterval iid s))

/-- Firing a due `setTimeout(connectSW, _)` timer: the timer is consumed,
time advances to its fire time, and `connectSW` runs with outcome `ok`. -/
def fireReconnectStep (t : Timer) (ok : Bool) (s : St) : St :=
  connectSW ok { s with
    now := max s.now t.fireAt
    timers := s.timers.filter (fun u => u.id != t.id) }

/-- Firing a due ping-interval timer: time advances to its fire time, the
interval is rescheduled one period later, and the interval callback runs. -/
def fireIntervalStep (t : Timer) (per : Nat) (s : St) : St :=
  pingTick { s with
    now := max s.now t.fireAt
    timers := { t with fireAt := t.fireAt + per } ::
              s.timers.filter (fun u => u.id != t.id) }

/-- The platform delivers the disconnect event for an open port `pid`: the
port closes and its registered listener (capturing interval `iid`) runs. -/
def deliverDisconnectStep (pid iid : Nat) (s : St) : St :=
  onDisconnectListener iid { s with openPorts := s.openPorts.erase pid }

/-- One step of the browser event loop. -/
inductive Step : St → St → Prop where
  | fireReconnect (s : St) (t : Timer) (ok : Bool) :
      t ∈ s.timers → Task.isReconnect t.task = true →
      Step s (fireReconnectStep t ok s)
  | fireInterval (s : St) (t : Timer) (per : Nat) :
      t ∈ s.timers → Task.isPing t.task = true → t.period = some per →
      Step s (fireIntervalStep t per s)
  | deliverDisconnect (s : St) (pid iid : Nat) :
      (pid, iid) ∈ s.listeners → pid ∈ s.openPorts →
      Step s (deliverDisconnectStep pid iid s)
  | advance (s : St) (d : Nat) :
      Step s { s with now := s.now + d }

/-- The module state just before the IIFE's final `connectSW()` call. -/
def initialState : St :=
  { now := 0, swPort := none, nextPortId := 0, nextTimerId := 0,
    timers := [], listeners := [], openPorts := [], sent := [], log := [] }

/-- The state after the initial `connectSW()` call (line 29), whose open
attempt succeeds iff `ok`. -/
def boot (ok : Bool) : St := connectSW ok initialState

/-- The states the event loop can reach from boot. -/
def Reachable (ok : Bool) (s : St) : Prop :=
  Relation.ReflTransGen Step (boot ok) s

/-- The live heartbeat (`setInterval`) timers. -/
def pingTimers (s : St) : List Timer :=
  s.timers.filter (fun t => Task.isPing t.task)

/-- The live pending-retry (`setTimeout(connectSW, _)`) timers. -/
def reconnectTimers (s : St) : List Timer :=
  s.timers.filter (fun t => Task.isReconnect t.task)

example : (boot true).timers = [{ id := 0, fireAt := 20000, period := some 20000, task := Task.ping }] := by decide
example : (boot true).listeners = [(0, 0)] := by decide
example : (boot false).timers = [{ id := 0, fireAt := 2000, period := none, task := Task.reconnect }] := by decide
example : (pingTick { boot true with now := 7 }).sent = [{ port := 0, payload := pingPayload 7 }] := by decide

/-- The interval callback only ever appends to `sent`: every other field of
the state is untouched (the `catch` swallows any failure). -/
theorem pingTick_frame (s : St) :
    (pingTick s).now = s.now ∧ (pingTick s).swPort = s.swPort ∧
    (pingTick s).nextPortId = s.nextPortId ∧ (pingTick s).nextTimerId = s.nextTimerId ∧
    (pingTick s).timers = s.timers ∧ (pingTick s).listeners = s.listeners ∧
    (pingTick s).openPorts = s.openPorts ∧ (pingTick s).log = s.log := by
  unfold pingTick postMessage
  cases hsw : s.swPort with
  | none => simp [hsw]
  | some p => by_cases h : p ∈ s.openPorts <;> simp [hsw, h]

theorem isReconnect_of_not_isPing (tk : Task) (h : Task.isPing tk = false) :
    Task.isReconnect tk = true := by
  cases tk <;> simp_all [Task.isPing, Task.isReconnect]

theorem not_isReconnect_of_isPing (tk : Task) (h : Task.isPing tk = true) :
    Task.isReconnect tk = false := by
  cases tk <;> simp_all [Task.isPing, Task.isReconnect]

theorem eq_singleton_of_mem_of_length_le {α : Type} (l : List α) (a : α)
    (ha : a ∈ l) (hl : l.length ≤ 1) : l = [a] := by
  cases l with
  | nil => cases ha
  | cons b bs =>
    cases bs with
    | nil =>
      cases ha with
      | head => rfl
      | tail _ h => cases h
    | cons c cs => simp at hl

/-- If there are no live ping timers, every live timer is a reconnect timer,
and with at most one of those the whole timer list is the one we hold. -/
theorem timers_eq_of_reconnect (s : St) (t : Timer)
    (ht : t ∈ s.timers) (hpc : (pingTimers s).length = 0)
    (hrc : (reconnectTimers s).length ≤ 1) : s.timers = [t] := by
  have hping : pingTimers s = [] := List.length_eq_zero.mp hpc
  have hall : ∀ u ∈ s.timers, Task.isReconnect u.task = true := by
    intro u hu
    by_cases hp : Task.isPing u.task = true
    · exact absurd (hping ▸ List.mem_filter.mpr ⟨hu, hp⟩) (List.not_mem_nil u)
    · exact isReconnect_of_not_isPing _ (Bool.not_eq_true _ ▸ hp)
  have hfeq : reconnectTimers s = s.timers := List.filter_eq_self.mpr hall
  exact eq_singleton_of_mem_of_length_le _ _ ht (hfeq ▸ hrc)

/-- Symmetrically: no reconnect timers and at most one ping timer pins the
timer list. -/
theorem timers_eq_of_ping (s : St) (t : Timer)
    (ht : t ∈ s.timers) (hrc : (reconnectTimers s).length = 0)
    (hpc : (pingTimers s).length ≤ 1) : s.timers = [t] := by
  have hrec : reconnectTimers s = [] := List.length_eq_zero.mp hrc
  have hall : ∀ u ∈ s.timers, Task.isPing u.task = true := by
    intro u hu
    by_cases hp : Task.isReconnect u.task = true
    · exact absurd (hrec ▸ List.mem_filter.mpr ⟨hu, hp⟩) (List.not_mem_nil u)
    · cases hq : Task.isPing u.task
      · exact absurd (isReconnect_of_not_isPing _ hq) hp
      · rfl
  have hfeq : pingTimers s = s.timers := List.filter_eq_self.mpr hall
  exact eq_singleton_of_mem_of_length_le _ _ ht (hfeq ▸ hpc)

/-- The inductive invariant of the event loop: at most one open port, exactly
one heartbeat timer per open port, at most one pending retry and none while a
port is open, every disconnect listener of an open port points at the live
heartbeat timer, and the fresh-id counters dominate every allocated id. -/
def Inv (s : St) : Prop :=
  s.openPorts.length ≤ 1
  ∧ (pingTimers s).length = s.openPorts.length
  ∧ (reconnectTimers s).length ≤ 1
  ∧ (s.openPorts = [] ∨ (reconnectTimers s).length = 0)
  ∧ (∀ pi ∈ s.listeners, pi.1 ∈ s.openPorts → ∀ t ∈ pingTimers s, t.id = pi.2)
  ∧ (∀ t ∈ s.timers, t.id < s.nextTimerId)
  ∧ (∀ pi ∈ s.listeners, pi.1 < s.nextPortId)
  ∧ (∀ p ∈ s.openPorts, p < s.nextPortId)

theorem inv_boot (ok : Bool) : Inv (boot ok) := by
  cases ok <;> (unfold Inv; decide)

/-- `connectSW` started from a state with no live timers and no open port
(re)establishes the invariant, whichever way the open attempt goes. -/
theorem inv_connectSW (v : St) (ok : Bool) (hT : v.timers = []) (hO : v.openPorts = [])
    (hL : ∀ pi ∈ v.listeners, pi.1 < v.nextPortId) : Inv (connectSW ok v) := by
  unfold connectSW connectBody scheduleReconnect logError Inv pingTimers reconnectTimers
  cases ok with
  | false =>
    simp [hT, hO, Task.isPing, Task.isReconnect]
    intro a b hab
    exact hL (a, b) hab
  | true =>
    simp [hT, hO, Task.isPing, Task.isReconnect]
    constructor
    · intro a b hab ha
      exact absurd (ha ▸ hL (a, b) hab) (lt_irrefl _)
    · intro a b hab
      exact Nat.lt_succ_of_lt (hL (a, b) hab)

theorem inv_fireReconnect (s : St) (t : Timer) (ok : Bool)
    (hi : Inv s) (ht : t ∈ s.timers) (htk : Task.isReconnect t.task = true) :
    Inv (fireReconnectStep t ok s) := by
  obtain ⟨h1, h2, h3, h4, h5, h6, h7, h8⟩ := hi
  have htr : t ∈ reconnectTimers s := List.mem_filter.mpr ⟨ht, htk⟩
  have hop : s.openPorts = [] := by
    rcases h4 with h4 | h4
    · exact h4
    · exact absurd h4
        (Nat.pos_iff_ne_zero.mp (List.length_pos.mpr (List.ne_nil_of_mem htr)))
  have hpc : (pingTimers s).length = 0 := by rw [h2, hop]; rfl
  have htimers : s.timers = [t] := timers_eq_of_reconnect s t ht hpc h3
  unfold fireReconnectStep
  apply inv_connectSW
  · show s.timers.filter (fun u => u.id != t.id) = []
    rw [htimers]; simp
  · exact hop
  · exact h7

theorem inv_pingTick (v : St) (hv : Inv v) : Inv (pingTick v) := by
  obtain ⟨f1, f2, f3, f4, f5, f6, f7, f8⟩ := pingTick_frame v
  unfold Inv pingTimers reconnectTimers at hv ⊢
  rw [f3, f4, f5, f6, f7]
  exact hv

theorem inv_fireInterval (s : St) (t : Timer) (per : Nat)
    (hi : Inv s) (ht : t ∈ s.timers) (htk : Task.isPing t.task = true) :
    Inv (fireIntervalStep t per s) := by
  obtain ⟨h1, h2, h3, h4, h5, h6, h7, h8⟩ := hi
  have htp : t ∈ pingTimers s := List.mem_filter.mpr ⟨ht, htk⟩
  have hrc : (reconnectTimers s).length = 0 := by
    rcases h4 with h4 | h4
    · exfalso
      have hz : (pingTimers s).length = 0 := by rw [h2, h4]; rfl
      exact Nat.pos_iff_ne_zero.mp (List.length_pos.mpr (List.ne_nil_of_mem htp)) hz
    · exact h4
  have hpl : (pingTimers s).length ≤ 1 := by rw [h2]; exact h1
  have htimers : s.timers = [t] := timers_eq_of_ping s t ht hrc hpl
  have hone : (pingTimers s).length = 1 := by
    unfold pingTimers; rw [htimers]; simp [htk]
  obtain ⟨p0, hp0⟩ : ∃ p0, s.openPorts = [p0] :=
    List.length_eq_one.mp (by rw [← h2]; exact hone)
  unfold fireIntervalStep
  apply inv_pingTick
  unfold Inv pingTimers reconnectTimers
  refine ⟨?_, ?_, ?_, ?_, ?_, ?_, ?_, ?_⟩
  · simpa using h1
  · show (({ t with fireAt := t.fireAt + per } ::
        s.timers.filter (fun u => u.id != t.id)).filter
          (fun u => Task.isPing u.task)).length = s.openPorts.length
    rw [htimers, hp0]; simp [htk]
  · show (({ t with fireAt := t.fireAt + per } ::
        s.timers.filter (fun u => u.id != t.id)).filter
          (fun u => Task.isReconnect u.task)).length ≤ 1
    rw [htimers]; simp [not_isReconnect_of_isPing _ htk]
  · right
    show (({ t with fireAt := t.fireAt + per } ::
        s.timers.filter (fun u => u.id != t.id)).filter
          (fun u => Task.isReconnect u.task)).length = 0
    rw [htimers]; simp [not_isReconnect_of_isPing _ htk]
  · intro pi hpi hmem u hu
    have hmem2 : pi.1 ∈ s.openPorts := hmem
    have hu2 : u ∈ ({ t with fireAt := t.fireAt + per } ::
        s.timers.filter (fun u => u.id != t.id)).filter
          (fun u => Task.isPing u.task) := hu
    rw [htimers] at hu2
    simp [htk] at hu2
    have : u.id = t.id := by rw [hu2]
    rw [this]
    exact h5 pi hpi hmem2 t htp
  · intro u hu
    have hu2 : u ∈ ({ t with fireAt := t.fireAt + per } ::
        s.timers.filter (fun u => u.id != t.id)) := hu
    rw [htimers] at hu2
    simp at hu2
    have : u.id = t.id := by rw [hu2]
    rw [this]
    exact h6 t ht
  · exact h7
  · exact h8

theorem inv_deliverDisconnect (s : St) (pid iid : Nat)
    (hi : Inv s) (hl : (pid, iid) ∈ s.listeners) (hp : pid ∈ s.openPorts) :
    Inv (deliverDisconnectStep pid iid s) := by
  obtain ⟨h1, h2, h3, h4, h5, h6, h7, h8⟩ := hi
  have hop : s.openPorts = [pid] := eq_singleton_of_mem_of_length_le _ _ hp h1
  have hrc : (reconnectTimers s).length = 0 := by
    rcases h4 with h4 | h4
    · exact absurd (h4 ▸ hp) (List.not_mem_nil pid)
    · exact h4
  have hrec : reconnectTimers s = [] := List.length_eq_zero.mp hrc
  have hallid : ∀ u ∈ s.timers, u.id = iid := by
    intro u hu
    have hup : Task.isPing u.task = true := by
      by_cases hq : Task.isReconnect u.task = true
      · exact absurd (hrec ▸ List.mem_filter.mpr ⟨hu, hq⟩) (List.not_mem_nil u)
      · cases hqq : Task.isPing u.task
        · exact absurd (isReconnect_of_not_isPing _ hqq) hq
        · rfl
    exact h5 (pid, iid) hl hp u (List.mem_filter.mpr ⟨hu, hup⟩)
  have hclr : s.timers.filter (fun u => u.id != iid) = [] := by
    rw [List.filter_eq_nil_iff]
    intro u hu
    simp [hallid u hu]
  have her : s.openPorts.erase pid = [] := by rw [hop]; simp
  unfold deliverDisconnectStep onDisconnectListener scheduleReconnect logWarn clearInterval
  unfold Inv pingTimers reconnectTimers
  refine ⟨?_, ?_, ?_, ?_, ?_, ?_, ?_, ?_⟩ <;>
    simp [hclr, her, Task.isPing, Task.isReconnect]
  intro a b hab
  exact h7 (a, b) hab

theorem inv_advance (s : St) (d : Nat) (hi : Inv s) : Inv { s with now := s.now + d } := by
  unfold Inv pingTimers reconnectTimers at hi ⊢
  exact hi

theorem inv_step (s s2 : St) (hi : Inv s) (h : Step s s2) : Inv s2 := by
  cases h with
  | fireReconnect t ok ht htk => exact inv_fireReconnect s t ok hi ht htk
  | fireInterval t per ht htk hper => exact inv_fireInterval s t per hi ht htk
  | deliverDisconnect pid iid hl hp => exact inv_deliverDisconnect s pid iid hi hl hp
  | advance d => exact inv_advance s d hi

theorem inv_reachable (ok : Bool) (s : St) (h : Reachable ok s) : Inv s := by
  induction h with
  | refl => exact inv_boot ok
  | tail hab hbc ih => exact inv_step _ _ ih hbc

/-- A concrete open-link state (port 0 open, its ping interval live, clock
at 7), used to instantiate the theorems below. -/
def sampleOpen : St :=
  { now := 7, swPort := some 0, nextPortId := 1, nextTimerId := 1,
    timers := [{ id := 0, fireAt := 20007, period := some 20000, task := Task.ping }],
    listeners := [(0, 0)], openPorts := [0], sent := [],
    log := [LogLine.connectedInfo] }

/-- The same state after the platform severed the port but before any
callback ran: the module still references port 0, which is no longer open. -/
def sampleClosed : St :=
  { sampleOpen with openPorts := [] }

/-- C1: `connectSW` never throws to its caller: when the synchronous
`chrome.runtime.connect` call throws (`ok = false`), the try body raises,
the catch handler logs the diagnostic failure and schedules exactly one
retry of `connectSW` 2000 milliseconds later, and the call returns normally
with exactly that one new timer added. -/
theorem c1_connect_failure_caught (s : St) :
    connectBody false s = Except.error ()
    ∧ connectSW false s = scheduleReconnect 2000 (logError s)
    ∧ (connectSW false s).timers
      = { id := s.nextTimerId, fireAt := s.now + 2000, period := none,
          task := Task.reconnect } :: s.timers
    ∧ (connectSW false s).log = LogLine.connectFailError :: s.log :=
  ⟨rfl, rfl, rfl, rfl⟩

/-- C2: at every reachable instant of the event loop — any number of
disconnect/reconnect or open-failure cycles — at most one heartbeat interval
and at most one pending retry timeout are live. -/
theorem c2_no_duplicate_timers (ok : Bool) (s : St) (h : Reachable ok s) :
    (pingTimers s).length ≤ 1 ∧ (reconnectTimers s).length ≤ 1 := by
  obtain ⟨h1, h2, h3, _⟩ := inv_reachable ok s h
  exact ⟨by rw [h2]; exact h1, h3⟩

theorem c2_no_duplicate_timers_witness :
    Reachable true (deliverDisconnectStep 0 0 (boot true))
    ∧ (pingTimers (deliverDisconnectStep 0 0 (boot true))).length ≤ 1
    ∧ (reconnectTimers (deliverDisconnectStep 0 0 (boot true))).length ≤ 1 := by
  have hr : Reachable true (deliverDisconnectStep 0 0 (boot true)) :=
    Relation.ReflTransGen.tail Relation.ReflTransGen.refl
      (Step.deliverDisconnect (boot true) 0 0 (by decide) (by decide))
  obtain ⟨ha, hb⟩ := c2_no_duplicate_timers true _ hr
  exact ⟨hr, ha, hb⟩

/-- C3: while a link is open the heartbeat fires once every 20000
milliseconds — a successful `connectSW` starts the interval one period
after the connect, each firing reschedules that same interval exactly one
period later and posts exactly one ping message — and once the link's port
has been marked closed, a tick posts nothing. -/
theorem c3_heartbeat_cadence (s : St) (t : Timer) (per p : Nat)
    (hsw : s.swPort = some p) :
    (connectSW true s).timers.head?
      = some { id := s.nextTimerId, fireAt := s.now + 20000,
               period := some 20000, task := Task.ping }
    ∧ (fireIntervalStep t per s).timers.head?
      = some { id := t.id, fireAt := t.fireAt + per, period := t.period, task := t.task }
    ∧ (p ∈ s.openPorts → (fireIntervalStep t per s).sent
        = { port := p, payload := pingPayload (max s.now t.fireAt) } :: s.sent)
    ∧ (p ∉ s.openPorts → (fireIntervalStep t per s).sent = s.sent) := by
  refine ⟨rfl, ?_, ?_, ?_⟩
  · show (pingTick _).timers.head? = _
    rw [(pingTick_frame _).2.2.2.2.1]
    rfl
  · intro hopen
    unfold fireIntervalStep pingTick postMessage
    simp [hsw, hopen]
  · intro hclosed
    unfold fireIntervalStep pingTick postMessage
    simp [hsw, hclosed]

theorem c3_heartbeat_cadence_witness :
    (fireIntervalStep { id := 0, fireAt := 20007, period := some 20000, task := Task.ping }
        20000 sampleOpen).sent
      = [{ port := 0, payload := pingPayload 20007 }] := by
  have h := (c3_heartbeat_cadence sampleOpen
      { id := 0, fireAt := 20007, period := some 20000, task := Task.ping }
      20000 0 (by decide)).2.2.1 (by decide)
  rw [h]; decide

/-- C4: the disconnect listener stops the heartbeat interval it captured,
logs the disconnection, and schedules exactly one `connectSW` retry whose
fire time is 1000 milliseconds after the disconnect instant; and a retry
timer never runs before its fire time. -/
theorem c4_disconnect_schedules_retry (s v : St) (iid : Nat) (t : Timer) (ok : Bool) :
    (onDisconnectListener iid s).timers
      = { id := s.nextTimerId, fireAt := s.now + 1000, period := none,
          task := Task.reconnect } :: (clearInterval iid s).timers
    ∧ (onDisconnectListener iid s).log = LogLine.disconnectWarn :: s.log
    ∧ (∀ u ∈ (clearInterval iid s).timers, u.id ≠ iid)
    ∧ (fireReconnectStep t ok v).now ≥ t.fireAt := by
  refine ⟨rfl, rfl, ?_, ?_⟩
  · intro u hu
    have hu2 : u ∈ s.timers.filter (fun x => x.id != iid) := hu
    simpa using (List.mem_filter.mp hu2).2
  · have hnow : ∀ w : St, (connectSW ok w).now = w.now := by
      intro w
      unfold connectSW connectBody scheduleReconnect logError
      cases ok <;> simp
    unfold fireReconnectStep
    rw [hnow]
    exact le_max_right _ _

theorem c4_disconnect_schedules_retry_witness :
    (onDisconnectListener 0 sampleOpen).log
      = LogLine.disconnectWarn :: sampleOpen.log :=
  (c4_disconnect_schedules_retry sampleOpen sampleOpen 0
    { id := 0, fireAt := 20007, period := some 20000, task := Task.ping } true).2.1

/-- C5: in every execution of the disconnect listener the captured heartbeat
interval is cleared strictly before the replacement retry is scheduled (the
listener is definitionally that composition), and afterwards no live
ping-interval timer carries the dead link's interval id. -/
theorem c5_clear_before_schedule (s : St) (iid : Nat) :
    onDisconnectListener iid s = scheduleReconnect 1000 (logWarn (clearInterval iid s))
    ∧ (∀ u ∈ (clearInterval iid s).timers, u.id ≠ iid)
    ∧ (∀ u ∈ (onDisconnectListener iid s).timers,
        Task.isPing u.task = true → u.id ≠ iid) := by
  refine ⟨rfl, ?_, ?_⟩
  · intro u hu
    have hu2 : u ∈ s.timers.filter (fun x => x.id != iid) := hu
    simpa using (List.mem_filter.mp hu2).2
  · intro u hu hping
    have hu2 : u ∈ ({ id := s.nextTimerId, fireAt := s.now + 1000,
                      period := none, task := Task.reconnect } : Timer)
        :: s.timers.filter (fun x => x.id != iid) := hu
    rcases List.mem_cons.mp hu2 with he | he
    · rw [he] at hping
      simp [Task.isPing] at hping
    · simpa using (List.mem_filter.mp he).2

theorem c5_clear_before_schedule_witness :
    (onDisconnectListener 0 sampleOpen).timers
      = [{ id := 1, fireAt := 1007, period := none, task := Task.reconnect }] := by
  have h := (c5_clear_before_schedule sampleOpen 0).1
  rw [h]; decide

theorem length_filter_and_le {α : Type} (p q : α → Bool) (l : List α) :
    (l.filter (fun a => p a && q a)).length ≤ (l.filter p).length := by
  induction l with
  | nil => exact Nat.le_refl 0
  | cons a l ih =>
    cases hp : p a with
    | false => simpa [List.filter_cons, hp] using ih
    | true =>
      cases hq : q a with
      | false =>
        simp [List.filter_cons, hp, hq]
        exact Nat.le_succ_of_le ih
      | true =>
        simp [List.filter_cons, hp, hq]
        exact ih

/-- C6: a heartbeat tick whose send fails (the module port is already
closed) is swallowed silently: nothing is sent, nothing is logged, the same
interval stays live rescheduled one period later, and the tick itself
schedules no extra retry. -/
theorem c6_send_failure_swallowed (s : St) (t : Timer) (per p : Nat)
    (hsw : s.swPort = some p) (hclosed : p ∉ s.openPorts) :
    (fireIntervalStep t per s).sent = s.sent
    ∧ (fireIntervalStep t per s).log = s.log
    ∧ (fireIntervalStep t per s).timers.head?
      = some { id := t.id, fireAt := t.fireAt + per, period := t.period, task := t.task }
    ∧ (Task.isPing t.task = true →
        (reconnectTimers (fireIntervalStep t per s)).length
          ≤ (reconnectTimers s).length) := by
  refine ⟨?_, ?_, ?_, ?_⟩
  · unfold fireIntervalStep pingTick postMessage
    simp [hsw, hclosed]
  · show (pingTick _).log = _
    rw [(pingTick_frame _).2.2.2.2.2.2.2]
  · show (pingTick _).timers.head? = _
    rw [(pingTick_frame _).2.2.2.2.1]
    rfl
  · intro hping
    have hT : (fireIntervalStep t per s).timers
        = { t with fireAt := t.fireAt + per } :: s.timers.filter (fun u => u.id != t.id) :=
      (pingTick_frame _).2.2.2.2.1
    unfold reconnectTimers
    rw [hT]
    simp [not_isReconnect_of_isPing _ hping]
    exact length_filter_and_le (fun a => Task.isReconnect a.task)
      (fun a => a.id != t.id) s.timers

theorem c6_send_failure_swallowed_witness :
    (fireIntervalStep { id := 0, fireAt := 20007, period := some 20000, task := Task.ping }
        20000 sampleClosed).sent = sampleClosed.sent :=
  (c6_send_failure_swallowed sampleClosed
    { id := 0, fireAt := 20007, period := some 20000, task := Task.ping }
    20000 0 (by decide) (by decide)).1

/-- C7 counterexample: at a concrete open-link state at time 7, the tick
posts exactly one message and its payload is `{ type: 'ping', ts: 7 }`,
which is not the `{ kind, timestamp }` key shape the claim states. -/
theorem c7_payload_shape_counterexample :
    (pingTick sampleOpen).sent = [{ port := 0, payload := pingPayload 7 }]
    ∧ pingPayload 7 ≠ specPingPayload 7 := by decide

/-- C7 (amended): every heartbeat message posted by the tick has payload
`{ type: "ping", ts: <epoch-milliseconds> }` — key `type` (not `kind`) and
key `ts` (not `timestamp`) — where `ts` is the current epoch time at the
moment of the tick. -/
theorem c7_ping_payload (s : St) (p : Nat)
    (hsw : s.swPort = some p) (hopen : p ∈ s.openPorts) :
    (pingTick s).sent
      = { port := p,
          payload := [("type", JVal.str "ping"), ("ts", JVal.num s.now)] } :: s.sent := by
  unfold pingTick postMessage
  simp [hsw, hopen, pingPayload]

theorem c7_ping_payload_witness :
    (pingTick sampleOpen).sent
      = [{ port := 0,
           payload := [("type", JVal.str "ping"), ("ts", JVal.num 7)] }] := by
  have h := c7_ping_payload sampleOpen 0 (by decide) (by decide)
  rw [h]; decide

/-- Running the disconnect listener prepends one fresh retry to the pending
retries, provided no pending retry already carries the cleared interval id. -/
theorem filter_reconnect_drop (iid : Nat) (l : List Timer)
    (h : ∀ u ∈ l, Task.isReconnect u.task = true → u.id ≠ iid) :
    (l.filter (fun x => x.id != iid)).filter (fun t => Task.isReconnect t.task)
      = l.filter (fun t => Task.isReconnect t.task) := by
  induction l with
  | nil => rfl
  | cons a l ih =>
    have hrest := fun u hu => h u (List.mem_cons_of_mem a hu)
    cases ha : Task.isReconnect a.task with
    | false =>
      cases hb : (a.id != iid) with
      | false => simp [List.filter_cons, ha, hb, ih hrest]
      | true => simp [List.filter_cons, ha, hb, ih hrest]
    | true =>
      have hne : a.id ≠ iid := h a (List.mem_cons_self a l) ha
      have hb : (a.id != iid) = true := by simpa using hne
      simp [List.filter_cons, ha, hb, ih hrest]

theorem reconnectTimers_onDisconnect (s : St) (iid : Nat)
    (h : ∀ u ∈ s.timers, Task.isReconnect u.task = true → u.id ≠ iid) :
    reconnectTimers (onDisconnectListener iid s)
      = { id := s.nextTimerId, fireAt := s.now + 1000, period := none,
          task := Task.reconnect } :: reconnectTimers s := by
  unfold reconnectTimers
  have hstep : (onDisconnectListener iid s).timers.filter
        (fun t => Task.isReconnect t.task)
      = ({ id := s.nextTimerId, fireAt := s.now + 1000,
           period := none, task := Task.reconnect } : Timer)
        :: (s.timers.filter (fun x => x.id != iid)).filter
             (fun t => Task.isReconnect t.task) := rfl
  rw [hstep, filter_reconnect_drop iid s.timers h]

/-- C8 counterexample: from the freshly connected boot state, the platform
firing the same port's disconnect listener twice leaves two pending retries
scheduled, not one. -/
theorem c8_double_disconnect_counterexample :
    (reconnectTimers (onDisconnectListener 0 (onDisconnectListener 0 (boot true)))).length
      = 2 := by decide

/-- C8 (amended): the disconnect listener is not idempotent per link — each
firing schedules one retry, so if the disconnect event fires twice in rapid
succession for the same link handle, two retries are scheduled; at most one
retry holds only under the platform guarantee that the disconnect event is
delivered at most once per port. -/
theorem c8_double_disconnect_two_retries (s : St) (iid : Nat)
    (hlt : iid < s.nextTimerId)
    (h : ∀ u ∈ s.timers, Task.isReconnect u.task = true → u.id ≠ iid) :
    (reconnectTimers (onDisconnectListener iid (onDisconnectListener iid s))).length
      = (reconnectTimers s).length + 2 := by
  have h1 := reconnectTimers_onDisconnect s iid h
  have h2 : ∀ u ∈ (onDisconnectListener iid s).timers,
      Task.isReconnect u.task = true → u.id ≠ iid := by
    intro u hu _
    have hu2 : u ∈ ({ id := s.nextTimerId, fireAt := s.now + 1000,
                      period := none, task := Task.reconnect } : Timer)
        :: s.timers.filter (fun x => x.id != iid) := hu
    rcases List.mem_cons.mp hu2 with he | he
    · rw [he]
      exact Nat.ne_of_gt hlt
    · simpa using (List.mem_filter.mp he).2
  have h3 := reconnectTimers_onDisconnect (onDisconnectListener iid s) iid h2
  rw [h3, h1]
  simp only [List.length_cons]

theorem c8_double_disconnect_witness :
    (reconnectTimers (onDisconnectListener 0 (onDisconnectListener 0 (boot true)))).length
      = (reconnectTimers (boot true)).length + 2 :=
  c8_double_disconnect_two_retries (boot true) 0 (by decide) (by decide)

/-- C9: when the open call throws, the assignment to `swPort` never
executes: the failed attempt leaves `swPort`, the open ports, the
listeners, the sent messages, the clock and the port counter unchanged,
adding only the retry timer and the error log line. -/
theorem c9_failed_connect_frame (s : St) :
    (connectSW false s).swPort = s.swPort
    ∧ (connectSW false s).openPorts = s.openPorts
    ∧ (connectSW false s).listeners = s.listeners
    ∧ (connectSW false s).sent = s.sent
    ∧ (connectSW false s).now = s.now
    ∧ (connectSW false s).nextPortId = s.nextPortId
    ∧ (connectSW false s).timers
      = { id := s.nextTimerId, fireAt := s.now + 2000, period := none,
          task := Task.reconnect } :: s.timers
    ∧ (connectSW false s).log = LogLine.connectFailError :: s.log :=
  ⟨rfl, rfl, rfl, rfl, rfl, rfl, rfl, rfl⟩

/-- C10: a disconnect listener clears only the interval id captured in its
own closure: every timer with a different id survives the listener, and each
successful `connectSW` call pairs the fresh port with the fresh interval id
it just created (the id counter strictly increases call over call), so an
old link's listener can never clear a newer link's interval. -/
theorem c10_clear_only_own_interval (s : St) (iid : Nat) (t : Timer)
    (ht : t ∈ s.timers) (hne : t.id ≠ iid) :
    t ∈ (onDisconnectListener iid s).timers
    ∧ (connectSW true s).listeners.head? = some (s.nextPortId, s.nextTimerId)
    ∧ (connectSW true s).timers.head?
      = some { id := s.nextTimerId, fireAt := s.now + 20000,
               period := some 20000, task := Task.ping }
    ∧ (connectSW true s).nextTimerId = s.nextTimerId + 1 := by
  refine ⟨?_, rfl, rfl, rfl⟩
  show t ∈ ({ id := s.nextTimerId, fireAt := s.now + 1000,
              period := none, task := Task.reconnect } : Timer)
      :: s.timers.filter (fun x => x.id != iid)
  exact List.mem_cons_of_mem _ (List.mem_filter.mpr ⟨ht, by simpa using hne⟩)

theorem c10_clear_only_own_interval_witness :
    ({ id := 0, fireAt := 20007, period := some 20000, task := Task.ping } : Timer)
      ∈ (onDisconnectListener 5 sampleOpen).timers :=
  (c10_clear_only_own_interval sampleOpen 5
    { id := 0, fireAt := 20007, period := some 20000, task := Task.ping }
    (by decide) (by decide)).1

end Offscreen
